import Mathlib

/-!
Verification of the aquarium simulation core against its specification.

The JavaScript source is embedded shallowly: each definition below mirrors one
function (or one self-contained slice) of the source, with JS numbers modelled
as exact rationals (`ℚ`) except for the schooling-leader simulation, which uses
`ℝ` because it computes with square roots and real powers.  Calls to
`Math.random()` and values of transcendental library calls (`Math.sin`,
`Math.pow` with non-integer exponents) that only feed cosmetic offsets are
passed in explicitly as oracle inputs; all theorems quantify over them.
-/

namespace Aquarium

/-- `THREE.MathUtils.clamp(value, min, max) = Math.max(min, Math.min(max, value))`. -/
def clampQ (v lo hi : ℚ) : ℚ := max lo (min hi v)

/-- `THREE.MathUtils.lerp(x, y, t) = x + (y - x) * t`. -/
def lerpQ (x y t : ℚ) : ℚ := x + (y - x) * t

theorem clampQ_mono {v w : ℚ} (lo hi : ℚ) (h : v ≤ w) : clampQ v lo hi ≤ clampQ w lo hi := by
  unfold clampQ
  exact max_le_max le_rfl (min_le_min le_rfl h)

theorem clampQ_le (v lo hi : ℚ) (h : lo ≤ hi) : clampQ v lo hi ≤ hi := by
  unfold clampQ
  exact max_le h (min_le_left _ _)

theorem le_clampQ (v lo hi : ℚ) : lo ≤ clampQ v lo hi := le_max_left _ _

theorem clampQ_of_le {v lo hi : ℚ} (hlo : lo ≤ v) (hhi : v ≤ hi) : clampQ v lo hi = v := by
  unfold clampQ
  rw [min_eq_right hhi, max_eq_right hlo]

/-! ## Shop coins (`ShopUI` in src/aquarium.js) -/

/-- `ShopUI.setCoins(coins)`: `this.state.coins = Math.max(0, Math.floor(coins))`. -/
def setCoins (coins : ℚ) : ℚ := max 0 (⌊coins⌋ : ℚ)

/-- `ShopUI.addCoins(delta)`: `this.setCoins(this.state.coins + delta)` (then the
`onCoinsChanged` callback receives the stored value). -/
def addCoins (coins delta : ℚ) : ℚ := setCoins (coins + delta)

/-- Outcome of one click on a buy card: the resulting balance, whether the
`onBuyItem` purchase callback ran, and whether the `"buy"` UI event was emitted. -/
structure BuyOutcome where
  coins : ℚ
  onBuyItemFired : Bool
  buyEventFired : Bool
  deriving Repr, DecidableEq

/-- The buy branch of the click handler in `ShopUI._makeCard`:
`cost = Math.max(0, item.price ?? 0)`; if `cost > state.coins` the handler
shows "nope" and returns without touching the balance or firing anything;
otherwise it runs `addCoins(-cost)`, the `onBuyItem` callback and the
`"buy"` event. -/
def buyClick (stateCoins price : ℚ) : BuyOutcome :=
  let cost := max 0 price
  if cost > stateCoins then
    { coins := stateCoins, onBuyItemFired := false, buyEventFired := false }
  else
    { coins := addCoins stateCoins (-cost), onBuyItemFired := true, buyEventFired := true }

/-- C9: every write of the balance goes through `setCoins`, whose result is a
non-negative integer (`addCoins` merely delegates to it), and a buy attempt
whose cost exceeds the current balance leaves the balance unchanged and fires
neither the purchase callback nor the buy event. -/
theorem coins_nonneg_int_and_failed_buy_noop :
    (∀ c : ℚ, 0 ≤ setCoins c ∧ ∃ n : ℤ, setCoins c = (n : ℚ)) ∧
    (∀ c d : ℚ, addCoins c d = setCoins (c + d)) ∧
    (∀ coins price : ℚ, max 0 price > coins →
      buyClick coins price =
        { coins := coins, onBuyItemFired := false, buyEventFired := false }) := by
  refine ⟨fun c => ⟨le_max_left _ _, ?_⟩, fun c d => rfl, fun coins price h => ?_⟩
  · refine ⟨max 0 ⌊c⌋, ?_⟩
    unfold setCoins
    push_cast
    rfl
  · unfold buyClick
    simp only [h, if_true]

/-- Witness for C9 at a concrete input: balance 3, price 5. -/
theorem coins_nonneg_int_and_failed_buy_noop_witness :
    max (0 : ℚ) 5 > 3 ∧
      buyClick 3 5 = { coins := 3, onBuyItemFired := false, buyEventFired := false } :=
  ⟨by norm_num, coins_nonneg_int_and_failed_buy_noop.2.2 3 5 (by norm_num)⟩

/-! ## Sell list (`rebuildSellList` in main) -/

/-- The fields of one `hatchFish` registry entry that `rebuildSellList` reads.
`hasObj` records whether `hf.obj` is non-null (entries without a live object are
skipped). -/
structure HatchEntry where
  id : ℕ
  eggType : String
  bornAt : ℚ
  growDur : ℚ
  hasObj : Bool
  deriving Repr, DecidableEq

/-- Egg purchase price per egg type, from the `shopData.eggs` table in main. -/
def eggPrice (eggType : String) : ℚ :=
  if eggType = "basic" then 0
  else if eggType = "schooling" then 35
  else if eggType = "tropical" then 45
  else if eggType = "saltwater" then 60
  else if eggType = "ornamental" then 120
  else if eggType = "deepsea" then 150
  else if eggType = "mythical" then 190
  else 0

/-- `sellPriceForEggType`: base is the matching egg price (0 when no egg entry
matches); `if (base <= 0) return 5; return Math.ceil(base * 1.12)`. -/
def sellPriceForEggType (eggType : String) : ℚ :=
  let base := eggPrice eggType
  if base ≤ 0 then 5 else (⌈base * 1.12⌉ : ℚ)

/-- One entry of the rebuilt `shopData.sell` list (the fields the claims use). -/
structure SellItem where
  fishId : ℕ
  eggType : String
  price : ℚ
  deriving Repr, DecidableEq

/-- `rebuildSellList(now)`: walks `hatchFish`, skips entries without a live
`obj`, skips entries with `now - bornAt < growDur`, and pushes a sell item with
the fish id and `sellPriceForEggType` price for the rest. -/
def rebuildSellList (now : ℚ) (hatchFish : List HatchEntry) : List SellItem :=
  (hatchFish.filter fun hf => hf.hasObj && decide (¬ now - hf.bornAt < hf.growDur)).map
    fun hf => { fishId := hf.id, eggType := hf.eggType, price := sellPriceForEggType hf.eggType }

theorem mem_map_of_nodup_ids {l : List HatchEntry} (hnd : (l.map HatchEntry.id).Nodup)
    {a b : HatchEntry} (ha : a ∈ l) (hb : b ∈ l) (hid : a.id = b.id) : a = b := by
  induction l with
  | nil => cases ha
  | cons x xs ih =>
      simp only [List.map_cons, List.nodup_cons] at hnd
      rcases List.mem_cons.mp ha with rfl | ha2
      · rcases List.mem_cons.mp hb with rfl | hb2
        · rfl
        · exact absurd (hid ▸ List.mem_map_of_mem HatchEntry.id hb2) hnd.1
      · rcases List.mem_cons.mp hb with rfl | hb2
        · exact absurd (hid ▸ List.mem_map_of_mem HatchEntry.id ha2) hnd.1
        · exact ih hnd.2 ha2 hb2

/-- C3: for a hatched fish with a live object (and fish ids unique, as granted
by the monotonic id counter), the rebuilt sell list contains its id iff
`now - bornAt ≥ growDur`; in particular it is absent at age `growDur - 0.01`
and present at age `growDur`. -/
theorem rebuildSellList_mem_iff (now : ℚ) (l : List HatchEntry) (hf : HatchEntry)
    (hmem : hf ∈ l) (hobj : hf.hasObj = true) (hnd : (l.map HatchEntry.id).Nodup) :
    (∃ it ∈ rebuildSellList now l, it.fishId = hf.id) ↔ hf.growDur ≤ now - hf.bornAt := by
  constructor
  · rintro ⟨it, hit, hid⟩
    unfold rebuildSellList at hit
    rcases List.mem_map.mp hit with ⟨hf2, hf2f, rfl⟩
    rcases List.mem_filter.mp hf2f with ⟨hf2l, hcond⟩
    simp only [Bool.and_eq_true, decide_eq_true_eq] at hcond
    have : hf2 = hf := mem_map_of_nodup_ids hnd hf2l hmem hid
    subst this
    exact not_lt.mp hcond.2
  · intro hage
    refine ⟨{ fishId := hf.id, eggType := hf.eggType, price := sellPriceForEggType hf.eggType },
      ?_, rfl⟩
    unfold rebuildSellList
    refine List.mem_map.mpr ⟨hf, List.mem_filter.mpr ⟨hmem, ?_⟩, rfl⟩
    simp only [Bool.and_eq_true, decide_eq_true_eq]
    exact ⟨hobj, not_lt.mpr hage⟩

/-- Witness for C3: a basic fish with `growDur = 10`, probed at age
`growDur - 0.01` (absent) and at age `growDur` (present). -/
theorem rebuildSellList_mem_iff_witness :
    (¬ ∃ it ∈ rebuildSellList (9.99 : ℚ)
        [{ id := 1, eggType := "basic", bornAt := 0, growDur := 10, hasObj := true }],
        it.fishId = 1) ∧
    (∃ it ∈ rebuildSellList (10 : ℚ)
        [{ id := 1, eggType := "basic", bornAt := 0, growDur := 10, hasObj := true }],
        it.fishId = 1) := by
  constructor
  · intro h
    have h2 := (rebuildSellList_mem_iff (9.99 : ℚ) _
      { id := 1, eggType := "basic", bornAt := 0, growDur := 10, hasObj := true }
      (List.mem_singleton.mpr rfl) rfl (by decide)).mp h
    norm_num at h2
  · exact (rebuildSellList_mem_iff (10 : ℚ) _
      { id := 1, eggType := "basic", bornAt := 0, growDur := 10, hasObj := true }
      (List.mem_singleton.mpr rfl) rfl (by decide)).mpr (by norm_num)

/-! ## Growth scaling (render loop, `retargetGrowthForMode`) -/

/-- The cubic smoothstep used by the growth block: `eased = f * f * (3 - 2 * f)`. -/
def growthEase (f : ℚ) : ℚ := f * f * (3 - 2 * f)

/-- The visual scale fraction computed each frame by the growth block of the
render loop: `f = clamp(age / growDur, 0, 1)`, `eased = f*f*(3-2*f)`,
`s = lerp(startF, endF, eased)` (the root scale is then `baseScale * s`). -/
def growthScaleFrac (startF endF age growDur : ℚ) : ℚ :=
  let f := clampQ (age / growDur) 0 1
  lerpQ startF endF (growthEase f)

/-- `hf.startF`, the juvenile scale fraction set at spawn and by
`retargetGrowthForMode`. -/
def hatchStartF : ℚ := 0.14

/-- `hf.endF`, the adult scale fraction set at spawn and by
`retargetGrowthForMode`. -/
def hatchEndF : ℚ := 1

theorem growthEase_mono {a b : ℚ} (h : a ≤ b) (ha : 0 ≤ a) (hb : b ≤ 1) :
    growthEase a ≤ growthEase b := by
  unfold growthEase
  have hb0 : 0 ≤ b := ha.trans h
  have h1 : 0 ≤ 3 - 2 * a - b := by linarith
  have h2 : 0 ≤ 3 - a - 2 * b := by linarith
  nlinarith [mul_nonneg (mul_nonneg (sub_nonneg.mpr h) ha) h1,
    mul_nonneg (mul_nonneg (sub_nonneg.mpr h) hb0) h2]

/-- C4: for positive `growDur` and juvenile fraction at most the adult fraction,
the visual scale fraction is non-decreasing in age, equals the juvenile
fraction at age 0, and equals exactly the adult fraction for every age at or
past `growDur`. -/
theorem growthScaleFrac_mono_and_endpoints (startF endF growDur : ℚ)
    (hg : 0 < growDur) (hse : startF ≤ endF) :
    (∀ a b : ℚ, a ≤ b → growthScaleFrac startF endF a growDur ≤
      growthScaleFrac startF endF b growDur) ∧
    growthScaleFrac startF endF 0 growDur = startF ∧
    (∀ age : ℚ, growDur ≤ age → growthScaleFrac startF endF age growDur = endF) := by
  refine ⟨fun a b hab => ?_, ?_, fun age hage => ?_⟩
  · unfold growthScaleFrac lerpQ
    have hmono : clampQ (a / growDur) 0 1 ≤ clampQ (b / growDur) 0 1 :=
      clampQ_mono 0 1 ((div_le_div_iff_of_pos_right hg).mpr hab)
    have h0 : (0 : ℚ) ≤ clampQ (a / growDur) 0 1 := le_clampQ _ _ _
    have h1 : clampQ (b / growDur) 0 1 ≤ 1 := clampQ_le _ _ _ (by norm_num)
    have he := growthEase_mono hmono h0 h1
    nlinarith [he]
  · unfold growthScaleFrac
    rw [zero_div, clampQ_of_le le_rfl (by norm_num)]
    unfold growthEase lerpQ
    ring
  · unfold growthScaleFrac
    have h1le : (1 : ℚ) ≤ age / growDur := (one_le_div hg).mpr hage
    have : clampQ (age / growDur) 0 1 = 1 := by
      unfold clampQ
      rw [min_eq_left h1le, max_eq_right (by norm_num)]
    rw [this]
    unfold growthEase lerpQ
    ring

/-- Witness for C4 at the spec's sample: `growDur = 10`, juvenile fraction
0.14; scale fraction is 0.14 at age 0, 1 at ages 10 and 15, and the sequence
sampled at ages 0, 5, 10, 15 is non-decreasing. -/
theorem growthScaleFrac_mono_and_endpoints_witness :
    growthScaleFrac hatchStartF hatchEndF 0 10 = hatchStartF ∧
    growthScaleFrac hatchStartF hatchEndF 10 10 = hatchEndF ∧
    growthScaleFrac hatchStartF hatchEndF 15 10 = hatchEndF ∧
    growthScaleFrac hatchStartF hatchEndF 0 10 ≤ growthScaleFrac hatchStartF hatchEndF 5 10 ∧
    growthScaleFrac hatchStartF hatchEndF 5 10 ≤ growthScaleFrac hatchStartF hatchEndF 10 10 := by
  have h := growthScaleFrac_mono_and_endpoints hatchStartF hatchEndF 10 (by norm_num)
    (by unfold hatchStartF hatchEndF; norm_num)
  exact ⟨h.2.1, h.2.2 10 le_rfl, h.2.2 15 (by norm_num),
    h.1 0 5 (by norm_num), h.1 5 10 (by norm_num)⟩

/-! ## Egg lifecycle (`Egg` in src/egg.js) -/

/-- The inner water rectangle the `Aquarium` instance exposes
(`innerLeft/innerRight/innerBottom/innerTop`). -/
structure InnerRect where
  innerLeft : ℚ
  innerRight : ℚ
  innerBottom : ℚ
  innerTop : ℚ
  deriving Repr, DecidableEq

/-- The environment an `Egg` reads in `_syncEnv`: world size, the optional
aquarium inner rectangle, and the optional sand bed height (`sand.bedH`). -/
structure EggEnv where
  worldW : ℚ
  worldH : ℚ
  aquarium : Option InnerRect
  sandBedH : Option ℚ
  deriving Repr, DecidableEq

/-- `Egg._r = Math.max(0.030, Math.min(0.048, Math.min(worldW, worldH) * 0.021))`. -/
def eggR (env : EggEnv) : ℚ :=
  max 0.030 (min 0.048 (min env.worldW env.worldH * 0.021))

/-- Bounds and sand line produced by `Egg._syncEnv`. -/
structure EggBounds where
  xMin : ℚ
  xMax : ℚ
  yMin : ℚ
  yMax : ℚ
  sandTopY : ℚ
  deriving Repr, DecidableEq

/-- `Egg._syncEnv`: inset the aquarium inner rectangle by `1.2 * r` when an
aquarium is present, otherwise fall back to fixed margins from the world
rectangle; the sand line is `-h/2 + bedH` with `bedH = sand.bedH` when a sand
object is present and `h * 0.22` otherwise. -/
def eggSyncEnv (env : EggEnv) : EggBounds :=
  let r := eggR env
  let w := env.worldW
  let h := env.worldH
  let bedH := env.sandBedH.getD (h * 0.22)
  match env.aquarium with
  | some a =>
      { xMin := a.innerLeft + r * 1.2, xMax := a.innerRight - r * 1.2,
        yMin := a.innerBottom + r * 1.2, yMax := a.innerTop - r * 1.2,
        sandTopY := -h / 2 + bedH }
  | none =>
      { xMin := -w / 2 + 0.18 + r, xMax := w / 2 - 0.18 - r,
        yMin := -h / 2 + 0.16 + r, yMax := h / 2 - 0.16 - r,
        sandTopY := -h / 2 + bedH }

/-- The mutable state of one `Egg`: logical position/velocity (`_x/_y/_vx/_vy`),
the oscillator seed `_phase` (only read inside the transcendental samples that
the oracle inputs carry, and restored by the mode-toggle snapshot), the
rendered group position and rotation, and the lifecycle fields. -/
structure EggState where
  x : ℚ
  y : ℚ
  vx : ℚ
  vy : ℚ
  phase : ℚ
  gx : ℚ
  gy : ℚ
  rotZ : ℚ
  rotX : ℚ
  landed : Bool
  age : ℚ
  hatchAt : ℚ
  didHatch : Bool
  dead : Bool
  sandSinkFactor : ℚ
  deriving Repr, DecidableEq

/-- Values of the transcendental library calls one `Egg.update(dt, t)` step
makes, passed in as oracle inputs: `sSwirl = sin((t+phase)*0.9)`,
`p92 = pow(0.92, dt*60)`, `p94 = pow(0.94, dt*60)`, `sWob = sin((t+phase)*6.2)`,
`sWob2 = sin((t+phase)*11.0)`, `sJx = sin((t+phase)*17.0)`,
`cJy = cos((t+phase)*13.0)`, `sRotZfall = sin((t+phase)*3.1)`,
`sRotXfall = sin((t+phase)*2.4)`. -/
structure EggTick where
  sSwirl : ℚ
  p92 : ℚ
  p94 : ℚ
  sWob : ℚ
  sWob2 : ℚ
  sJx : ℚ
  cJy : ℚ
  sRotZfall : ℚ
  sRotXfall : ℚ
  deriving Repr, DecidableEq

/-- `Egg.update(dt, t)`.  Returns the new state together with a flag recording
whether the `onHatch` callback was invoked during this step.  Mirrors the
source: early return on falsy `dt` and on `_dead`; `_age += dt`; the falling
branch applies swirl, damping, gravity, adds velocity to position (the source
adds `_vx`/`_vy` without a `dt` factor here), bounces off the side walls and
lands at `sandTopY + r * sandSinkFactor`; the incubating branch wobbles the
rotation, jitters the rendered position, and fires the hatch callback once when
`age ≥ hatchAt` (then `_popAndDisposeSoon` starts a 260 ms fade whose end sets
`_dead` outside of `update`). -/
def eggUpdate (env : EggEnv) (st : EggState) (dt : ℚ) (o : EggTick) : EggState × Bool :=
  if dt = 0 then (st, false)
  else if st.dead then (st, false)
  else
    let age := st.age + dt
    if st.landed then
      let wob := 0.20 * o.sWob
      let wob2 := 0.12 * o.sWob2
      let fired := !st.didHatch && decide (st.hatchAt ≤ age)
      ({ st with
          age := age
          rotZ := wob + wob2 * 0.35
          rotX := 0.10 * wob2
          gx := st.x + 0.0019 * o.sJx
          gy := st.y + 0.0013 * o.cJy
          didHatch := st.didHatch || decide (st.hatchAt ≤ age) }, fired)
    else
      let b := eggSyncEnv env
      let vx1 := (st.vx + 0.03 * o.sSwirl * dt) * o.p92
      let vy1 := st.vy * o.p94 - 0.028 * dt
      let x0 := st.x + vx1
      let y0 := st.y + vy1
      let p1 := if x0 < b.xMin then (b.xMin, |vx1| * 0.55) else (x0, vx1)
      let p2 := if p1.1 > b.xMax then (b.xMax, -|p1.2| * 0.55) else p1
      let groundY := b.sandTopY + eggR env * st.sandSinkFactor
      if y0 ≤ groundY then
        ({ st with
            age := age, x := p2.1, y := groundY, vx := p2.2 * 0.25, vy := 0
            landed := true, gx := p2.1, gy := groundY }, false)
      else
        ({ st with
            age := age, x := p2.1, y := y0, vx := p2.2, vy := vy1
            rotZ := 0.10 * o.sRotZfall, rotX := 0.08 * o.sRotXfall
            gx := p2.1, gy := y0 }, false)

/-- Drives an egg through a list of `(dt, oracle)` frames, collecting the
per-frame hatch-callback flags. -/
def eggRun (env : EggEnv) : EggState → List (ℚ × EggTick) → EggState × List Bool
  | st, [] => (st, [])
  | st, (dt, o) :: rest =>
      let s := eggUpdate env st dt o
      let r := eggRun env s.1 rest
      (r.1, s.2 :: r.2)

theorem eggUpdate_landed (env : EggEnv) (st : EggState) (dt : ℚ) (o : EggTick)
    (hdt : ¬ dt = 0) (hl : st.landed = true) (hd : st.dead = false) :
    eggUpdate env st dt o =
      ({ st with
          age := st.age + dt
          rotZ := 0.20 * o.sWob + 0.12 * o.sWob2 * 0.35
          rotX := 0.10 * (0.12 * o.sWob2)
          gx := st.x + 0.0019 * o.sJx
          gy := st.y + 0.0013 * o.cJy
          didHatch := st.didHatch || decide (st.hatchAt ≤ st.age + dt) },
        !st.didHatch && decide (st.hatchAt ≤ st.age + dt)) := by
  simp [eggUpdate, hdt, hl, hd]

theorem getD_replicate_false (n k : ℕ) : (List.replicate n false).getD k false = false := by
  induction n generalizing k with
  | zero => cases k <;> rfl
  | succ n ih =>
      cases k with
      | zero => rfl
      | succ k =>
          rw [List.replicate_succ, List.getD_cons_succ]
          exact ih k

theorem eggRun_didHatch_none (env : EggEnv) (ticks : List (ℚ × EggTick)) (st : EggState)
    (hl : st.landed = true) (hd : st.dead = false) (hh : st.didHatch = true)
    (hdts : ∀ p ∈ ticks, 0 < (p : ℚ × EggTick).1) :
    (eggRun env st ticks).2 = List.replicate ticks.length false := by
  induction ticks generalizing st with
  | nil => rfl
  | cons p rest ih =>
      obtain ⟨dt, o⟩ := p
      have hdt : ¬ dt = 0 := ne_of_gt (hdts (dt, o) (List.mem_cons_self _ _))
      have hstep := eggUpdate_landed env st dt o hdt hl hd
      have htail := ih ({ st with
          age := st.age + dt
          rotZ := 0.20 * o.sWob + 0.12 * o.sWob2 * 0.35
          rotX := 0.10 * (0.12 * o.sWob2)
          gx := st.x + 0.0019 * o.sJx
          gy := st.y + 0.0013 * o.cJy
          didHatch := st.didHatch || decide (st.hatchAt ≤ st.age + dt) })
        hl hd (by simp [hh]) (fun q hq => hdts q (List.mem_cons_of_mem _ hq))
      rw [hh] at htail
      simp only [eggRun, hstep, hh, List.length_cons, List.replicate_succ]
      rw [htail]
      simp

theorem sum_take_nonneg {l : List ℚ} (h : ∀ x ∈ l, 0 < x) (k : ℕ) : 0 ≤ (l.take k).sum :=
  List.sum_nonneg fun x hx => le_of_lt (h x (List.take_subset k l hx))

/-- C2: a landed, unhatched, live egg driven through positive-`dt` frames fires
its hatch callback exactly once iff the accumulated age reaches `hatchAt`
during the run, and the frame at which it fires is exactly the first frame
whose post-increment age is `≥ hatchAt`; no later frame fires it again. -/
theorem egg_hatch_fires_exactly_once (env : EggEnv) (st : EggState)
    (ticks : List (ℚ × EggTick))
    (hl : st.landed = true) (hd : st.dead = false) (hh : st.didHatch = false)
    (ha : st.age < st.hatchAt) (hdts : ∀ p ∈ ticks, 0 < (p : ℚ × EggTick).1) :
    ((eggRun env st ticks).2.count true =
      if st.hatchAt ≤ st.age + (ticks.map Prod.fst).sum then 1 else 0) ∧
    (∀ k : ℕ, (eggRun env st ticks).2.getD k false = true ↔
      (k < ticks.length ∧
        st.hatchAt ≤ st.age + ((ticks.map Prod.fst).take (k + 1)).sum ∧
        st.age + ((ticks.map Prod.fst).take k).sum < st.hatchAt)) := by
  induction ticks generalizing st with
  | nil =>
      refine ⟨?_, fun k => ?_⟩
      · simp [eggRun, not_le.mpr ha]
      · simp [eggRun]
  | cons p rest ih =>
      obtain ⟨dt, o⟩ := p
      have hdt0 : 0 < dt := hdts (dt, o) (List.mem_cons_self _ _)
      have hdt : ¬ dt = 0 := ne_of_gt hdt0
      have hrest : ∀ q ∈ rest, 0 < (q : ℚ × EggTick).1 :=
        fun q hq => hdts q (List.mem_cons_of_mem _ hq)
      have hstep := eggUpdate_landed env st dt o hdt hl hd
      by_cases hcross : st.hatchAt ≤ st.age + dt
      · -- the egg hatches on this very frame
        have hfired : (!st.didHatch && decide (st.hatchAt ≤ st.age + dt)) = true := by
          simp [hh, hcross]
        have hnone := eggRun_didHatch_none env rest
          ({ st with
              age := st.age + dt
              rotZ := 0.20 * o.sWob + 0.12 * o.sWob2 * 0.35
              rotX := 0.10 * (0.12 * o.sWob2)
              gx := st.x + 0.0019 * o.sJx
              gy := st.y + 0.0013 * o.cJy
              didHatch := st.didHatch || decide (st.hatchAt ≤ st.age + dt) })
          hl hd (by simp [hh, hcross]) hrest
        refine ⟨?_, fun k => ?_⟩
        · have hsum : st.hatchAt ≤ st.age + (dt + (rest.map Prod.fst).sum) := by
            have : (0 : ℚ) ≤ (rest.map Prod.fst).sum :=
              List.sum_nonneg fun x hx => by
                rcases List.mem_map.mp hx with ⟨q, hq, rfl⟩
                exact le_of_lt (hrest q hq)
            linarith
          simp only [eggRun, hstep, hfired, hnone, List.map_cons, List.sum_cons]
          rw [if_pos hsum]
          simp [List.count_cons, List.count_replicate]
        · cases k with
          | zero =>
              simp only [eggRun, hstep, hfired, hnone, List.getD_cons_zero, List.map_cons]
              constructor
              · intro _
                refine ⟨Nat.succ_pos _, ?_, ?_⟩
                · simpa using hcross
                · simpa using ha
              · intro _
                trivial
          | succ k =>
              simp only [eggRun, hstep, hfired, hnone, List.getD_cons_succ, List.map_cons]
              rw [getD_replicate_false]
              constructor
              · intro hfk
                exact absurd hfk Bool.false_ne_true
              · rintro ⟨-, -, hlt⟩
                exfalso
                have hnn : (0 : ℚ) ≤ ((rest.map Prod.fst).take k).sum :=
                  sum_take_nonneg (fun x hx => by
                    rcases List.mem_map.mp hx with ⟨q, hq, rfl⟩
                    exact hrest q hq) k
                rw [List.take_succ_cons, List.sum_cons] at hlt
                linarith
      · -- not yet: this frame does not fire and the state stays unhatched
        have hfired : (!st.didHatch && decide (st.hatchAt ≤ st.age + dt)) = false := by
          simp [hh, hcross]
        have hih := ih ({ st with
            age := st.age + dt
            rotZ := 0.20 * o.sWob + 0.12 * o.sWob2 * 0.35
            rotX := 0.10 * (0.12 * o.sWob2)
            gx := st.x + 0.0019 * o.sJx
            gy := st.y + 0.0013 * o.cJy
            didHatch := st.didHatch || decide (st.hatchAt ≤ st.age + dt) })
          hl hd (by simp [hh, hcross]) (by simpa using not_le.mp hcross) hrest
        refine ⟨?_, fun k => ?_⟩
        · simp only [eggRun, hstep, hfired, List.map_cons, List.sum_cons, List.count_cons]
          rw [hih.1]
          have harr : st.age + dt + (rest.map Prod.fst).sum =
              st.age + (dt + (rest.map Prod.fst).sum) := by ring
          rw [harr]
          simp
        · cases k with
          | zero =>
              simp only [eggRun, hstep, hfired, List.getD_cons_zero, List.map_cons]
              constructor
              · intro hfk
                exact absurd hfk (by simp)
              · rintro ⟨-, hle, -⟩
                exfalso
                rw [List.take_succ_cons, List.take_zero, List.sum_cons, List.sum_nil] at hle
                exact hcross (by linarith)
          | succ k =>
              simp only [eggRun, hstep, hfired, List.getD_cons_succ, List.map_cons]
              rw [hih.2 k]
              constructor
              · rintro ⟨hk, hle, hlt⟩
                refine ⟨Nat.succ_lt_succ hk, ?_, ?_⟩
                · rw [List.take_succ_cons, List.sum_cons]
                  linarith
                · rw [List.take_succ_cons, List.sum_cons]
                  linarith
              · rintro ⟨hk, hle, hlt⟩
                rw [List.take_succ_cons, List.sum_cons] at hle hlt
                exact ⟨Nat.lt_of_succ_lt_succ hk, by linarith, by linarith⟩

/-- A default oracle sample (all transcendental samples 0) used by witnesses. -/
def eggTick0 : EggTick :=
  { sSwirl := 0, p92 := 0, p94 := 0, sWob := 0, sWob2 := 0, sJx := 0, cJy := 0,
    sRotZfall := 0, sRotXfall := 0 }

/-- A default environment sample used by witnesses. -/
def eggEnv0 : EggEnv := { worldW := 2, worldH := 2.2, aquarium := none, sandBedH := none }

/-- A landed incubating egg sample used by witnesses: `hatchAt = 8`, age 0. -/
def eggLanded0 : EggState :=
  { x := 0, y := -0.6, vx := 0, vy := 0, phase := 0, gx := 0, gy := -0.6, rotZ := 0, rotX := 0,
    landed := true, age := 0, hatchAt := 8, didHatch := false, dead := false,
    sandSinkFactor := 0.38 }

/-- Witness for C2 at the spec sample: `hatchAt = 8`, 200 frames of `dt = 0.1`. -/
theorem egg_hatch_fires_exactly_once_witness :
    eggLanded0.landed = true ∧ eggLanded0.didHatch = false ∧
      eggLanded0.age < eggLanded0.hatchAt ∧
    ((eggRun eggEnv0 eggLanded0 (List.replicate 200 ((0.1 : ℚ), eggTick0))).2.count true =
      if eggLanded0.hatchAt ≤ eggLanded0.age +
          ((List.replicate 200 ((0.1 : ℚ), eggTick0)).map Prod.fst).sum then 1 else 0) := by
  refine ⟨rfl, rfl, by norm_num [eggLanded0], ?_⟩
  exact (egg_hatch_fires_exactly_once eggEnv0 eggLanded0 _ rfl rfl rfl
    (by norm_num [eggLanded0])
    (fun p hp => by
      have := List.eq_of_mem_replicate hp
      rw [this]
      norm_num)).1

/-- C10: once the `_dead` flag is set, `Egg.update` returns immediately: the
whole state (age, position, velocity, rotation, flags) is unchanged and the
hatch callback cannot fire, for every `dt`, clock value and oracle sample. -/
theorem egg_dead_update_is_frozen (env : EggEnv) (st : EggState) (dt : ℚ) (o : EggTick)
    (hdead : st.dead = true) : eggUpdate env st dt o = (st, false) := by
  unfold eggUpdate
  by_cases h : dt = 0 <;> simp [h, hdead]

/-- Witness for C10: a concrete dead egg is left untouched by an update step. -/
theorem egg_dead_update_is_frozen_witness :
    ({ eggLanded0 with dead := true, didHatch := true }.dead = true) ∧
    eggUpdate eggEnv0 { eggLanded0 with dead := true, didHatch := true } 0.1 eggTick0 =
      ({ eggLanded0 with dead := true, didHatch := true }, false) :=
  ⟨rfl, egg_dead_update_is_frozen eggEnv0 _ 0.1 eggTick0 rfl⟩

/-! ## Fish bounds (`_syncBounds` of the fish classes) -/

/-- The allowed rectangle a fish's `_syncBounds` produces. -/
structure FishBounds where
  xMin : ℚ
  xMax : ℚ
  yMin : ℚ
  yMax : ℚ
  deriving Repr, DecidableEq

/-- `CommonFish._syncBounds` (bounds part; the same method also refreshes
`_speed` and `_bobAmp`, modelled by `commonFishSpeed`/`commonFishBobAmp`):
fixed-floor margins, sand line at 22% of height, and a hard top wall at
`aquarium.innerTop - halfH` when an aquarium is present. -/
def commonFishSyncBounds (width height halfW halfH : ℚ) (aquarium : Option InnerRect) :
    FishBounds :=
  let marginX := max (0.08 * width) 0.18
  let topMargin := max (0.10 * height) 0.16
  let sandTopY := -height / 2 + height * 0.22
  let sandMargin := max (0.08 * height) 0.12
  { xMin := -width / 2 + marginX + halfW
    xMax := width / 2 - marginX - halfW
    yMin := sandTopY + sandMargin + halfH
    yMax :=
      match aquarium with
      | some a => a.innerTop - halfH
      | none => height / 2 - topMargin - halfH }

/-- `CommonFish._syncBounds`: `_speed = clamp(w * 0.12, 0.18, 0.75)`. -/
def commonFishSpeed (width : ℚ) : ℚ := clampQ (width * 0.12) 0.18 0.75

/-- `CommonFish._syncBounds`: `_bobAmp = clamp(h * 0.012, 0.018, 0.045)`. -/
def commonFishBobAmp (height : ℚ) : ℚ := clampQ (height * 0.012) 0.018 0.045

/-- `SchoolingFish._syncBounds` (bounds part; the speed/threshold updates of
the same method are not read by any claim): member margins plus a
`topBuffer = max(0.04h, 0.14)` strict buffer under the rim. -/
def schoolingFishSyncBounds (width height halfW halfH : ℚ) (aquarium : Option InnerRect) :
    FishBounds :=
  let marginX := max (0.08 * width) 0.18
  let topBuffer := max (0.04 * height) 0.14
  let sandTopY := -height / 2 + height * 0.22
  let sandMargin := max (0.08 * height) 0.12
  { xMin := -width / 2 + marginX + halfW
    xMax := width / 2 - marginX - halfW
    yMin := sandTopY + sandMargin + halfH
    yMax :=
      match aquarium with
      | some a => a.innerTop - topBuffer - halfH
      | none => height / 2 - topBuffer - halfH }

/-- `ReefFish._syncBounds`: keeps the turtle in the lower half, floors the raw
band at 0.15, subtracts half-extents, and when the resulting order would
invert re-centres a minimal band of half-height 0.05 around the midpoint. -/
def reefFishSyncBounds (width height halfW halfH : ℚ) : FishBounds :=
  let marginX := max (0.10 * width) 0.22
  let topMargin := max (0.12 * height) 0.18
  let sandTopY := -height / 2 + height * 0.22
  let sandMargin := max (0.10 * height) 0.14
  let xMin0 := -width / 2 + marginX
  let xMax0 := width / 2 - marginX
  let yMin0 := sandTopY + sandMargin + 0.06 * height
  let yMax0raw := height / 2 - topMargin - 0.22 * height
  let yMax0 := if yMax0raw < yMin0 + 0.15 then yMin0 + 0.15 else yMax0raw
  let yMin1 := yMin0 + halfH
  let yMax1 := yMax0 - halfH
  if yMax1 < yMin1 then
    let mid := (yMin1 + yMax1) * 0.5
    { xMin := xMin0 + halfW, xMax := xMax0 - halfW, yMin := mid - 0.05, yMax := mid + 0.05 }
  else
    { xMin := xMin0 + halfW, xMax := xMax0 - halfW, yMin := yMin1, yMax := yMax1 }

/-- C7 (counterexample): a 1x1 tank with a large fish (`halfH = 0.5`) makes
`CommonFish._syncBounds` produce an inverted vertical band, `yMin > yMax`,
with no recovery: the claimed minimal-band re-centring does not exist there. -/
theorem commonFish_bounds_can_invert :
    (commonFishSyncBounds 1 1 0.12 0.5 none).yMax <
      (commonFishSyncBounds 1 1 0.12 0.5 none).yMin ∧
    (schoolingFishSyncBounds 1 1 0.12 0.5 none).yMax <
      (schoolingFishSyncBounds 1 1 0.12 0.5 none).yMin := by
  constructor <;> norm_num [commonFishSyncBounds, schoolingFishSyncBounds]

/-- C7 (amended): only the reef fish bounds computation re-centres a minimal
band (half-height 0.05 around the midpoint) when the order would invert, so its
result always satisfies `yMin ≤ yMax`; the common and schooling fish bounds
computations have no such recovery and can produce `yMin > yMax` (see the
counterexample). -/
theorem reefFish_bounds_ordered (width height halfW halfH : ℚ) :
    (reefFishSyncBounds width height halfW halfH).yMin ≤
      (reefFishSyncBounds width height halfW halfH).yMax := by
  unfold reefFishSyncBounds
  dsimp only
  split_ifs with h1 h2 h2 <;> simp only <;> linarith

/-! ## Common fish patrol update (`CommonFish.update`) -/

/-- The mutable motion state of a `CommonFish`: logical position (`_x/_y`),
rendered group position, patrol direction `_dir`, flip cooldown
`_turnCooldown`, the spawn stabiliser (`_spawnLocked`/`_spawnLockTime`), and
the oscillator seed `_phase`. -/
structure CFState where
  x : ℚ
  y : ℚ
  gx : ℚ
  gy : ℚ
  dir : ℚ
  turnCooldown : ℚ
  spawnLocked : Bool
  spawnLockTime : ℚ
  phase : ℚ
  deriving Repr, DecidableEq

/-- Oracle inputs for one `CommonFish.update(dt, t)` step: the values of
`Math.sin((phase + t*0.7) * 0.55)` (the slow y drift) and
`Math.sin((phase + t) * bobRate)` (the bob). -/
structure CFTick where
  sDrift : ℚ
  sBob : ℚ
  deriving Repr, DecidableEq

/-- `CommonFish.update(dt, t)` (motion slice; the animation-mixer and
procedural-wiggle blocks only touch the rendered sub-mesh and are not part of
the motion state).  Returns the new state and whether `_flip` actually flipped
this step (its guarded body ran).  Mirrors the source: early return on falsy
`dt`; the spawn-locked branch pulls `_x/_y` from the rendered position and on
expiry unlocks, re-seeds `_phase = -t` and clamps the logical position; the
unlocked branch decrements the cooldown, advances `x` by `dir * speed * dt`,
clamps at the walls calling `_flip` (which is a no-op while `_turnCooldown >
0`, otherwise sets the new direction and a 0.12 s cooldown), applies the
drift/bob to `y`, and writes the rendered position with the bob re-clamped. -/
def cfStep (b : FishBounds) (speed bobAmp : ℚ) (st : CFState) (dt t : ℚ) (o : CFTick) :
    CFState × Bool :=
  if dt = 0 then (st, false)
  else if st.spawnLocked then
    let slt := max 0 (st.spawnLockTime - dt)
    if slt ≤ 0 then
      ({ st with
          spawnLockTime := slt
          x := clampQ st.gx b.xMin b.xMax
          y := clampQ st.gy b.yMin b.yMax
          phase := -t
          spawnLocked := false }, false)
    else
      ({ st with spawnLockTime := slt, x := st.gx, y := st.gy }, false)
  else
    let cd0 := if 0 < st.turnCooldown then max 0 (st.turnCooldown - dt) else st.turnCooldown
    let x1 := st.x + st.dir * speed * dt
    let r :=
      if x1 > b.xMax then
        if 0 < cd0 then (b.xMax, st.dir, cd0, false) else (b.xMax, (-1 : ℚ), (0.12 : ℚ), true)
      else if x1 < b.xMin then
        if 0 < cd0 then (b.xMin, st.dir, cd0, false) else (b.xMin, (1 : ℚ), (0.12 : ℚ), true)
      else (x1, st.dir, cd0, false)
    let y1 := clampQ (st.y + 0.03 * o.sDrift * dt) b.yMin b.yMax
    ({ st with
        x := r.1
        dir := r.2.1
        turnCooldown := r.2.2.1
        y := y1
        gx := r.1
        gy := clampQ (y1 + o.sBob * bobAmp) b.yMin b.yMax }, r.2.2.2)

/-- Drives a common fish through `(dt, t, oracle)` frames, collecting the
per-frame flip flags. -/
def cfRun (b : FishBounds) (speed bobAmp : ℚ) :
    CFState → List (ℚ × ℚ × CFTick) → CFState × List Bool
  | st, [] => (st, [])
  | st, (dt, t, o) :: rest =>
      let s := cfStep b speed bobAmp st dt t o
      let r := cfRun b speed bobAmp s.1 rest
      (r.1, s.2 :: r.2)

theorem cfStep_unlocked (b : FishBounds) (speed bobAmp : ℚ) (st : CFState) (dt t : ℚ)
    (o : CFTick) (hdt : ¬ dt = 0) (hsl : st.spawnLocked = false) :
    (cfStep b speed bobAmp st dt t o).1.spawnLocked = false ∧
    ((cfStep b speed bobAmp st dt t o).2 = true →
      (cfStep b speed bobAmp st dt t o).1.turnCooldown = 0.12) ∧
    ((cfStep b speed bobAmp st dt t o).2 = false →
      (cfStep b speed bobAmp st dt t o).1.turnCooldown =
        (if 0 < st.turnCooldown then max 0 (st.turnCooldown - dt) else st.turnCooldown)) ∧
    (0 < (if 0 < st.turnCooldown then max 0 (st.turnCooldown - dt) else st.turnCooldown) →
      (cfStep b speed bobAmp st dt t o).2 = false) := by
  simp only [cfStep, hdt, hsl, if_false, Bool.false_eq_true]
  split_ifs <;> simp_all

theorem cfRun_no_flip_while_cooling (b : FishBounds) (speed bobAmp : ℚ)
    (ticks : List (ℚ × ℚ × CFTick)) (st : CFState)
    (hsl : st.spawnLocked = false)
    (hdts : ∀ p ∈ ticks, 0 < (p : ℚ × ℚ × CFTick).1)
    (hsum : (ticks.map Prod.fst).sum < st.turnCooldown) :
    (cfRun b speed bobAmp st ticks).2.count true = 0 := by
  induction ticks generalizing st with
  | nil => rfl
  | cons p rest ih =>
      obtain ⟨dt, t, o⟩ := p
      have hdt0 : 0 < dt := hdts (dt, t, o) (List.mem_cons_self _ _)
      have hdt : ¬ dt = 0 := ne_of_gt hdt0
      have hrest : ∀ q ∈ rest, 0 < (q : ℚ × ℚ × CFTick).1 :=
        fun q hq => hdts q (List.mem_cons_of_mem _ hq)
      have hrsum : (0 : ℚ) ≤ (rest.map Prod.fst).sum :=
        List.sum_nonneg fun x hx => by
          rcases List.mem_map.mp hx with ⟨q, hq, rfl⟩
          exact le_of_lt (hrest q hq)
      rw [List.map_cons, List.sum_cons] at hsum
      have hcdpos : 0 < st.turnCooldown := by linarith
      have hcd : (if 0 < st.turnCooldown then max 0 (st.turnCooldown - dt)
          else st.turnCooldown) = st.turnCooldown - dt := by
        rw [if_pos hcdpos, max_eq_right (by linarith)]
      have hs := cfStep_unlocked b speed bobAmp st dt t o hdt hsl
      have hnof : (cfStep b speed bobAmp st dt t o).2 = false :=
        hs.2.2.2 (by rw [hcd]; linarith)
      have hcd2 : (cfStep b speed bobAmp st dt t o).1.turnCooldown = st.turnCooldown - dt := by
        rw [hs.2.2.1 hnof, hcd]
      simp only [cfRun, hnof, List.count_cons]
      have := ih (cfStep b speed bobAmp st dt t o).1 hs.1 hrest (by rw [hcd2]; linarith)
      simp [this]

/-- C8: starting from any unlocked patrol state (any bounds, any cooldown
value, any position - in particular a fish pinned at a horizontal boundary),
driving at most five consecutive `0.01 s` frames produces at most one direction
flip: after a flip the 0.12 s cooldown cannot elapse within the remaining
frames, so `_flip` is debounced. -/
theorem commonFish_flip_debounced (b : FishBounds) (speed bobAmp : ℚ) (st : CFState)
    (ticks : List (ℚ × ℚ × CFTick)) (hsl : st.spawnLocked = false)
    (hdts : ∀ p ∈ ticks, (p : ℚ × ℚ × CFTick).1 = 0.01)
    (hlen : ticks.length ≤ 5) :
    (cfRun b speed bobAmp st ticks).2.count true ≤ 1 := by
  have key : ∀ (l : List (ℚ × ℚ × CFTick)) (s : CFState), s.spawnLocked = false →
      (∀ p ∈ l, (p : ℚ × ℚ × CFTick).1 = 0.01) → (l.map Prod.fst).sum ≤ 0.12 →
      (cfRun b speed bobAmp s l).2.count true ≤ 1 := by
    intro l
    induction l with
    | nil => intro s _ _ _; simp [cfRun]
    | cons p rest ih =>
        intro s hsl2 hdl hsuml
        obtain ⟨dt, t, o⟩ := p
        have hdt01 : dt = 0.01 := hdl (dt, t, o) (List.mem_cons_self _ _)
        have hdt : ¬ dt = 0 := by rw [hdt01]; norm_num
        have hrest : ∀ q ∈ rest, (q : ℚ × ℚ × CFTick).1 = 0.01 :=
          fun q hq => hdl q (List.mem_cons_of_mem _ hq)
        have hs := cfStep_unlocked b speed bobAmp s dt t o hdt hsl2
        rw [List.map_cons, List.sum_cons] at hsuml
        cases hfl : (cfStep b speed bobAmp s dt t o).2 with
        | false =>
            simp only [cfRun, hfl, List.count_cons]
            have := ih (cfStep b speed bobAmp s dt t o).1 hs.1 hrest (by linarith [hsuml,
              (by rw [hdt01]; norm_num : (0 : ℚ) < dt)])
            simp [this]
        | true =>
            have hcool : (cfStep b speed bobAmp s dt t o).1.turnCooldown = 0.12 :=
              hs.2.1 hfl
            have hdtpos : (0 : ℚ) < dt := by rw [hdt01]; norm_num
            have hrest0 : (cfRun b speed bobAmp (cfStep b speed bobAmp s dt t o).1
                rest).2.count true = 0 := by
              apply cfRun_no_flip_while_cooling b speed bobAmp rest _ hs.1
                (fun q hq => by rw [hrest q hq]; norm_num)
              rw [hcool]
              linarith
            simp only [cfRun, hfl, List.count_cons, hrest0]
            simp
  apply key ticks st hsl hdts
  have : ∀ x ∈ ticks.map Prod.fst, x ≤ (0.01 : ℚ) := by
    intro x hx
    rcases List.mem_map.mp hx with ⟨q, hq, rfl⟩
    rw [hdts q hq]
  calc (ticks.map Prod.fst).sum ≤ (ticks.map Prod.fst).length • (0.01 : ℚ) :=
        List.sum_le_card_nsmul _ _ this
    _ = ((ticks.map Prod.fst).length : ℚ) * 0.01 := by rw [nsmul_eq_mul]
    _ = (ticks.length : ℚ) * 0.01 := by rw [List.length_map]
    _ ≤ 5 * 0.01 := by
        have : (ticks.length : ℚ) ≤ 5 := by exact_mod_cast hlen
        linarith
    _ ≤ 0.12 := by norm_num

/-- A boundary sample for the C8 witness: a fish parked exactly at `xMax`,
moving outward, with an expired cooldown. -/
def cfCorner0 : CFState :=
  { x := 0.5, y := 0, gx := 0.5, gy := 0, dir := 1, turnCooldown := 0,
    spawnLocked := false, spawnLockTime := 0, phase := 0 }

/-- Bounds sample for the C8 witness. -/
def cfBounds0 : FishBounds := { xMin := -0.5, xMax := 0.5, yMin := -0.3, yMax := 0.3 }

/-- Five frames of 0.01 s for the C8 witness. -/
def cfTicks5 : List (ℚ × ℚ × CFTick) :=
  List.replicate 5 ((0.01 : ℚ), (0 : ℚ), { sDrift := 0, sBob := 0 })

/-- Witness for C8: the concrete boundary scenario from the spec (five
consecutive 0.01 s frames at the wall) flips at most once. -/
theorem commonFish_flip_debounced_witness :
    cfCorner0.spawnLocked = false ∧
    (∀ p ∈ cfTicks5, (p : ℚ × ℚ × CFTick).1 = 0.01) ∧ cfTicks5.length ≤ 5 ∧
    (cfRun cfBounds0 0.3 0.03 cfCorner0 cfTicks5).2.count true ≤ 1 :=
  ⟨rfl, by simp [cfTicks5], by simp [cfTicks5],
    commonFish_flip_debounced cfBounds0 0.3 0.03 cfCorner0 cfTicks5 rfl
      (by simp [cfTicks5]) (by simp [cfTicks5])⟩

/-! ## Mode-toggle snapshot and rebuild (`rebuildEggVisualsForMode`,
`rebuildHatchedVisualsForMode` in main) -/

/-- The `Egg` constructor, with explicit `x`/`y` provided (the rebuild path
always provides them).  `r1`/`r2`/`r4` are the `Math.random()` draws for
`_vx = (r*2-1)*0.03`, `_vy = -0.06 - r*0.03` and `_hatchAt = 7.5 + r*5.0`;
`rphase` is the sampled value of `Math.random() * Math.PI * 2`.  Lifecycle
flags start fresh (`landed/didHatch/dead = false`, `age = 0`,
`sandSinkFactor = 0.38`) and `_applyPos` writes the rendered position. -/
def eggNew (x y r1 r2 rphase r4 : ℚ) : EggState :=
  { x := x, y := y
    vx := (r1 * 2 - 1) * 0.03
    vy := -0.06 - r2 * 0.03
    phase := rphase
    gx := x, gy := y
    rotZ := 0, rotX := 0
    landed := false
    age := 0
    hatchAt := 7.5 + r4 * 5.0
    didHatch := false
    dead := false
    sandSinkFactor := 0.38 }

/-- `Egg.setEnvironment`: re-runs `_syncEnv`, clamps the logical position to the
new bounds and applies it to the rendered position. -/
def eggSetEnvironment (env : EggEnv) (st : EggState) : EggState :=
  let b := eggSyncEnv env
  let x := clampQ st.x b.xMin b.xMax
  let y := clampQ st.y b.yMin b.yMax
  { st with x := x, y := y, gx := x, gy := y }

/-- One iteration of `rebuildEggVisualsForMode`: snapshot the old egg, dispose
it, construct a fresh `Egg` at the old rendered position (constructor
randomness explicit), overwrite the motion and lifecycle fields from the
snapshot, then `setEnvironment` + `_applyPos`. -/
def rebuildEggVisual (env : EggEnv) (old : EggState) (r1 r2 rphase r4 : ℚ) : EggState :=
  let neu := eggNew old.gx old.gy r1 r2 rphase r4
  let neu2 := { neu with
      x := old.x, y := old.y, vx := old.vx, vy := old.vy, phase := old.phase
      landed := old.landed, age := old.age, hatchAt := old.hatchAt
      didHatch := old.didHatch, dead := old.dead, sandSinkFactor := old.sandSinkFactor }
  eggSetEnvironment env neu2

/-- The duck-typed motion fields of one fish visual object (`PrimitiveFish` or
one of the seven model-backed classes): `Option` encodes field presence
(`CommonFish` has no `_vx/_vy`; `SchoolingFish` has no `_dir`), `gx/gy/gz` is
the group position, `isPrimitive` tags `PrimitiveFish` instances. -/
structure FishObj where
  x : ℚ
  y : ℚ
  vx : Option ℚ
  vy : Option ℚ
  dir : Option ℚ
  phase : ℚ
  gx : ℚ
  gy : ℚ
  gz : ℚ
  isPrimitive : Bool
  deriving Repr, DecidableEq

/-- The snapshot-and-restore core of `rebuildHatchedVisualsForMode`: capture
`x/y/z`, `_x/_y`, `_vx/_vy` (with presence flags), `_dir` (default 1) and
`_phase` from the old object, then write each captured field into the new
object when the new object has that field; a `PrimitiveFish` additionally
re-derives `_dir` from the sign of its `_vx`; finally the group position is set
to the snapshot position. -/
def restoreFishSnapshot (old neu : FishObj) : FishObj :=
  let vx := match old.vx, neu.vx with
    | some v, some _ => some v
    | _, nv => nv
  let vy := match old.vy, neu.vy with
    | some v, some _ => some v
    | _, nv => nv
  let dir := match neu.dir with
    | some _ => some (old.dir.getD 1)
    | none => none
  let dir2 := if neu.isPrimitive then
      match vx with
      | some v => some (if 0 ≤ v then (1 : ℚ) else -1)
      | none => dir
    else dir
  { x := old.x, y := old.y, vx := vx, vy := vy, dir := dir2, phase := old.phase,
    gx := old.gx, gy := old.gy, gz := old.gz, isPrimitive := neu.isPrimitive }

/-- One `hatchFish` registry record: identity, provenance, the attached visual
object, growth fields and the lift/settle state. -/
structure HatchRec where
  id : ℕ
  eggType : String
  obj : FishObj
  bornAt : ℚ
  growDur : ℚ
  startF : ℚ
  endF : ℚ
  adultRootScale : Option ℚ
  baseX : ℚ
  baseY : ℚ
  liftDur : ℚ
  liftDist : ℚ
  liftStart : Option ℚ
  liftDone : Bool
  settleUntil : Option ℚ
  settleExtra : ℚ
  deriving Repr, DecidableEq

/-- One iteration of `rebuildHatchedVisualsForMode` on a registry record: the
old visual is disposed, a fresh one (`neuInit`, whose constructor randomises
position/velocity) is built, the snapshot is restored into it, and
`retargetGrowthForMode` resets `startF = 0.14`, `endF = 1.0` and clears
`adultRootScale` so the base scale is re-measured in the new mode; every other
registry field (`bornAt`, `growDur`, lift and settle state) is untouched. -/
def rebuildHatchedVisual (hf : HatchRec) (neuInit : FishObj) : HatchRec :=
  { hf with
      obj := restoreFishSnapshot hf.obj neuInit
      startF := 0.14
      endF := 1
      adultRootScale := none }

/-- C5: the mode-toggle rebuild is state preserving.  (a) For an egg whose
logical position lies inside the current bounds, every captured field -
position, velocity, phase, `landed`, `age`, `hatchAt`, `didHatch`, `dead` - is
reproduced exactly, so age is not reset; (b) since `didHatch` is preserved, a
rebuilt already-hatched egg can never fire the hatch callback again; (c) for a
fish whose replacement object carries the same velocity fields, position,
velocity, phase and the group position are reproduced exactly, and the owning
record keeps `bornAt` (so age is not reset) and the `liftStart/liftDone/settle`
state (so the lift sequence is not re-fired). -/
theorem rebuild_preserves_state (env : EggEnv) (old : EggState) (r1 r2 rphase r4 : ℚ)
    (hf : HatchRec) (neuInit : FishObj)
    (hx1 : (eggSyncEnv env).xMin ≤ old.x) (hx2 : old.x ≤ (eggSyncEnv env).xMax)
    (hy1 : (eggSyncEnv env).yMin ≤ old.y) (hy2 : old.y ≤ (eggSyncEnv env).yMax)
    (hvx : neuInit.vx.isSome = hf.obj.vx.isSome)
    (hvy : neuInit.vy.isSome = hf.obj.vy.isSome) :
    (rebuildEggVisual env old r1 r2 rphase r4 =
      { old with gx := old.x, gy := old.y, rotZ := 0, rotX := 0 }) ∧
    (old.didHatch = true → old.landed = true → old.dead = false →
      ∀ ticks : List (ℚ × EggTick), (∀ p ∈ ticks, 0 < (p : ℚ × EggTick).1) →
        (eggRun env (rebuildEggVisual env old r1 r2 rphase r4) ticks).2.count true = 0) ∧
    ((rebuildHatchedVisual hf neuInit).obj.x = hf.obj.x ∧
      (rebuildHatchedVisual hf neuInit).obj.y = hf.obj.y ∧
      (rebuildHatchedVisual hf neuInit).obj.vx = hf.obj.vx ∧
      (rebuildHatchedVisual hf neuInit).obj.vy = hf.obj.vy ∧
      (rebuildHatchedVisual hf neuInit).obj.phase = hf.obj.phase ∧
      (rebuildHatchedVisual hf neuInit).obj.gx = hf.obj.gx ∧
      (rebuildHatchedVisual hf neuInit).obj.gy = hf.obj.gy ∧
      (rebuildHatchedVisual hf neuInit).obj.gz = hf.obj.gz ∧
      (rebuildHatchedVisual hf neuInit).bornAt = hf.bornAt ∧
      (rebuildHatchedVisual hf neuInit).growDur = hf.growDur ∧
      (rebuildHatchedVisual hf neuInit).liftStart = hf.liftStart ∧
      (rebuildHatchedVisual hf neuInit).liftDone = hf.liftDone ∧
      (rebuildHatchedVisual hf neuInit).settleUntil = hf.settleUntil) := by
  have hegg : rebuildEggVisual env old r1 r2 rphase r4 =
      { old with gx := old.x, gy := old.y, rotZ := 0, rotX := 0 } := by
    unfold rebuildEggVisual eggSetEnvironment eggNew
    simp only
    rw [clampQ_of_le hx1 hx2, clampQ_of_le hy1 hy2]
  refine ⟨hegg, fun hdh hld hdd ticks hdts => ?_, ?_, ?_, ?_, ?_, ?_, ?_, ?_, ?_, ?_, ?_,
    ?_, ?_, ?_⟩
  · rw [hegg, eggRun_didHatch_none env ticks _ (by simp [hld]) (by simp [hdd])
      (by simp [hdh]) hdts]
    simp [List.count_replicate]
  · rfl
  · rfl
  · unfold rebuildHatchedVisual restoreFishSnapshot
    simp only
    cases h1 : hf.obj.vx with
    | none =>
        rw [h1] at hvx
        cases h2 : neuInit.vx with
        | none => rfl
        | some v => rw [h2] at hvx; simp at hvx
    | some v =>
        rw [h1] at hvx
        cases h2 : neuInit.vx with
        | none => rw [h2] at hvx; simp at hvx
        | some w => rfl
  · unfold rebuildHatchedVisual restoreFishSnapshot
    simp only
    cases h1 : hf.obj.vy with
    | none =>
        rw [h1] at hvy
        cases h2 : neuInit.vy with
        | none => rfl
        | some v => rw [h2] at hvy; simp at hvy
    | some v =>
        rw [h1] at hvy
        cases h2 : neuInit.vy with
        | none => rw [h2] at hvy; simp at hvy
        | some w => rfl
  · rfl
  · rfl
  · rfl
  · rfl
  · rfl
  · rfl
  · rfl
  · rfl
  · rfl

/-- A fish visual-object sample used by the C5 witness. -/
def fishObj0 : FishObj :=
  { x := 0, y := 0, vx := none, vy := none, dir := some 1, phase := 0
    gx := 0, gy := 0, gz := 1.15, isPrimitive := false }

/-- A hatched-fish registry sample used by the C5 witness. -/
def hatchRec0 : HatchRec :=
  { id := 1, eggType := "basic", obj := fishObj0, bornAt := 0, growDur := 10, startF := 0.14
    endF := 1, adultRootScale := none, baseX := 0, baseY := 0, liftDur := 2.2
    liftDist := 0.22, liftStart := none, liftDone := true, settleUntil := none
    settleExtra := 0.35 }

/-- Witness for C5: a concrete landed egg (in bounds) and a concrete fish
record with matching velocity-field presence. -/
theorem rebuild_preserves_state_witness :
    ((eggSyncEnv eggEnv0).xMin ≤ eggLanded0.x ∧ eggLanded0.x ≤ (eggSyncEnv eggEnv0).xMax ∧
      (eggSyncEnv eggEnv0).yMin ≤ eggLanded0.y ∧ eggLanded0.y ≤ (eggSyncEnv eggEnv0).yMax) ∧
    rebuildEggVisual eggEnv0 eggLanded0 0.5 0.5 1 0.1 =
      { eggLanded0 with gx := eggLanded0.x, gy := eggLanded0.y, rotZ := 0, rotX := 0 } := by
  have hx1 : (eggSyncEnv eggEnv0).xMin ≤ eggLanded0.x := by
    norm_num [eggSyncEnv, eggEnv0, eggLanded0, eggR]
  have hx2 : eggLanded0.x ≤ (eggSyncEnv eggEnv0).xMax := by
    norm_num [eggSyncEnv, eggEnv0, eggLanded0, eggR]
  have hy1 : (eggSyncEnv eggEnv0).yMin ≤ eggLanded0.y := by
    norm_num [eggSyncEnv, eggEnv0, eggLanded0, eggR]
  have hy2 : eggLanded0.y ≤ (eggSyncEnv eggEnv0).yMax := by
    norm_num [eggSyncEnv, eggEnv0, eggLanded0, eggR]
  exact ⟨⟨hx1, hx2, hy1, hy2⟩,
    (rebuild_preserves_state eggEnv0 eggLanded0 0.5 0.5 1 0.1 hatchRec0 fishObj0
      hx1 hx2 hy1 hy2 rfl rfl).1⟩

/-! ## Resize (`resize` in main) -/

/-- The slice of one hatched-fish record the `resize` handler touches: the
visual root scale magnitude, the recorded adult scale, and the logical
position (re-clamped afterwards through `setBounds`). -/
structure ResizeFish where
  rootScale : ℚ
  adultRootScale : Option ℚ
  x : ℚ
  y : ℚ
  deriving Repr, DecidableEq

/-- The per-fish effect of `resize` for a common fish: with
`scaleK = worldH / prevH` (when `prevH > 0.0001`, else 1) the visual root scale
and any recorded adult root scale are multiplied by `scaleK`; the position is
then re-clamped (via `rebuildScene` / `setBounds` / `_clampToBounds`) to the
bounds computed for the new dimensions - the position itself is not rescaled. -/
def resizeHatchedCommon (prevH worldW worldH halfW halfH : ℚ) (aquarium : Option InnerRect)
    (f : ResizeFish) : ResizeFish :=
  let scaleK := if prevH > 0.0001 then worldH / prevH else 1
  let b := commonFishSyncBounds worldW worldH halfW halfH aquarium
  { rootScale := f.rootScale * scaleK
    adultRootScale := match f.adultRootScale with
      | some a => some (a * scaleK)
      | none => none
    x := clampQ f.x b.xMin b.xMax
    y := clampQ f.y b.yMin b.yMax }

/-- Modelled from the spec (for comparison with the code): "previously-valid
positions are rescaled proportionally to the change in tank height before
re-clamping". -/
def specResizeRescaled (prevH worldW worldH halfW halfH : ℚ) (aquarium : Option InnerRect)
    (f : ResizeFish) : ResizeFish :=
  let scaleK := worldH / prevH
  let b := commonFishSyncBounds worldW worldH halfW halfH aquarium
  { rootScale := f.rootScale * scaleK
    adultRootScale := match f.adultRootScale with
      | some a => some (a * scaleK)
      | none => none
    x := clampQ (f.x * scaleK) b.xMin b.xMax
    y := clampQ (f.y * scaleK) b.yMin b.yMax }

/-- C6 (counterexample): doubling the tank height (2.2 to 4.4) with a fish at
`y = 0.1` - valid under the old bounds - leaves its position at 0.1, while the
claimed proportional rescale would put it at 0.2: `resize` does not rescale
positions (it rescales the visual root scale instead). -/
theorem resize_does_not_rescale_positions :
    (let bOld := commonFishSyncBounds 2 2.2 0.1 0.08 none
     bOld.xMin ≤ 0.3 ∧ (0.3 : ℚ) ≤ bOld.xMax ∧ bOld.yMin ≤ 0.1 ∧ (0.1 : ℚ) ≤ bOld.yMax) ∧
    (resizeHatchedCommon 2.2 4 4.4 0.1 0.08 none
        { rootScale := 1, adultRootScale := none, x := 0.3, y := 0.1 }).y = 0.1 ∧
    (specResizeRescaled 2.2 4 4.4 0.1 0.08 none
        { rootScale := 1, adultRootScale := none, x := 0.3, y := 0.1 }).y = 0.2 ∧
    (0.1 : ℚ) ≠ 0.2 := by
  refine ⟨⟨?_, ?_, ?_, ?_⟩, ?_, ?_, by norm_num⟩ <;>
    norm_num [commonFishSyncBounds, resizeHatchedCommon, specResizeRescaled, clampQ]

/-- C6 (amended): on a resize, each hatched fish's visual root scale (and its
recorded adult scale) is multiplied by `worldH / prevH`, preserving relative
on-screen size; positions are not rescaled - each entity's old position is
merely re-clamped to the bounds recomputed for the new dimensions. -/
theorem resize_rescales_root_scale_only (prevH worldW worldH halfW halfH : ℚ)
    (aquarium : Option InnerRect) (f : ResizeFish) (hprev : prevH > 0.0001) :
    (resizeHatchedCommon prevH worldW worldH halfW halfH aquarium f).rootScale =
      f.rootScale * (worldH / prevH) ∧
    (resizeHatchedCommon prevH worldW worldH halfW halfH aquarium f).x =
      clampQ f.x (commonFishSyncBounds worldW worldH halfW halfH aquarium).xMin
        (commonFishSyncBounds worldW worldH halfW halfH aquarium).xMax ∧
    (resizeHatchedCommon prevH worldW worldH halfW halfH aquarium f).y =
      clampQ f.y (commonFishSyncBounds worldW worldH halfW halfH aquarium).yMin
        (commonFishSyncBounds worldW worldH halfW halfH aquarium).yMax := by
  unfold resizeHatchedCommon
  rw [if_pos hprev]
  exact ⟨rfl, rfl, rfl⟩

/-- Witness for the amended C6 at the counterexample's concrete input. -/
theorem resize_rescales_root_scale_only_witness :
    ((2.2 : ℚ) > 0.0001) ∧
    (resizeHatchedCommon 2.2 4 4.4 0.1 0.08 none
        { rootScale := 1, adultRootScale := none, x := 0.3, y := 0.1 }).rootScale =
      1 * ((4.4 : ℚ) / 2.2) :=
  ⟨by norm_num,
    (resize_rescales_root_scale_only 2.2 4 4.4 0.1 0.08 none
      { rootScale := 1, adultRootScale := none, x := 0.3, y := 0.1 } (by norm_num)).1⟩

/-! ## Shared school state (`SchoolingFish._tickSchool` and `SchoolingFish.update`)

This part is embedded over `ℝ` because the steering math uses square roots and
real powers.  `Math.random()` draws are explicit inputs (`TickRands`). -/

/-- `THREE.MathUtils.clamp` over the reals. -/
noncomputable def clampR (v lo hi : ℝ) : ℝ := max lo (min hi v)

/-- `THREE.MathUtils.lerp` over the reals. -/
def lerpR (x y t : ℝ) : ℝ := x + (y - x) * t

/-- The shared per-school leader record (`s.leader`). -/
structure SchoolLeader where
  x : ℝ
  y : ℝ
  vx : ℝ
  vy : ℝ

/-- The shared per-`schoolId` record held in the static `SchoolingFish._schools`
map: dimensions, the optional `aquarium.innerTop`, the respawn flag, the
member-size hint, the leader, the retarget timer and the current target. -/
structure School where
  width : ℝ
  height : ℝ
  innerTop : Option ℝ
  sizeHint : ℕ
  needsRespawn : Bool
  leaderHalfH : ℝ
  topBuffer : ℝ
  leader : SchoolLeader
  timer : ℝ
  targetX : ℝ
  targetY : ℝ

/-- The `Math.random()` draws one `_tickSchool` call may consume: the sign and
`vy` draws of the respawn branch, and the target/timer draws of the (at most
two) `_pickNewTarget` calls - `rA*` for the respawn path, `rB*` for the
timer-expiry path. -/
structure TickRands where
  rSign : ℝ
  rVy : ℝ
  rAx : ℝ
  rAy : ℝ
  rAt : ℝ
  rBx : ℝ
  rBy : ℝ
  rBt : ℝ

/-- `SchoolingFish._pickNewTarget(s)` with its three `Math.random()` draws
explicit: a fresh target inside the water rectangle and a 2.8-5.2 s timer.
`s.topBuffer || 0.14` means the 0.14 fallback applies when `topBuffer` is 0
(falsy); `s.leaderHalfH || 0` is the identity on numbers. -/
noncomputable def pickNewTarget (s : School) (r1 r2 r3 : ℝ) : School :=
  let w := s.width
  let h := s.height
  let marginX := max (0.12 * w) 0.26
  let sandTopY := -h / 2 + h * 0.22
  let sandMargin := max (0.10 * h) 0.14
  let xMin := -w / 2 + marginX
  let xMax := w / 2 - marginX
  let yMin := sandTopY + sandMargin + 0.06 * h
  let tb := if s.topBuffer = 0 then 0.14 else s.topBuffer
  let yMax := match s.innerTop with
    | some it => it - tb - s.leaderHalfH
    | none => h / 2 - tb - s.leaderHalfH
  { s with
      targetX := lerpR xMin xMax (0.18 + 0.64 * r1)
      targetY := lerpR yMin yMax (0.18 + 0.64 * r2)
      timer := 2.8 + r3 * 2.4 }

/-- `SchoolingFish._tickSchool(s, dt)`: respawn reset when flagged, timer
count-down with retarget on expiry, then seek-steering of the leader towards
the target (distance-gated desired speed, acceleration clamped to
`min(maxAccel, dLen/dt)`, exponential damping `0.90^dt`, speed clamp) followed
by integration and wall bounces at 0.65 restitution.  The `|| 1e-6` guards on
the square roots are modelled exactly. -/
noncomputable def tickSchool (dt : ℝ) (rr : TickRands) (s : School) : School :=
  let s1 := if s.needsRespawn then
      pickNewTarget
        { s with
            needsRespawn := false
            timer := 0
            leader :=
              { x := 0, y := 0
                vx := 0.30 * (if rr.rSign < 0.5 then 1 else -1)
                vy := 0.06 * (rr.rVy * 2 - 1) } }
        rr.rAx rr.rAy rr.rAt
    else s
  let s2 := { s1 with timer := s1.timer - dt }
  let s3 := if s2.timer ≤ 0 then pickNewTarget s2 rr.rBx rr.rBy rr.rBt else s2
  let w := s3.width
  let h := s3.height
  let marginX := max (0.10 * w) 0.22
  let sandTopY := -h / 2 + h * 0.22
  let sandMargin := max (0.10 * h) 0.14
  let xMin := -w / 2 + marginX
  let xMax := w / 2 - marginX
  let yMin := sandTopY + sandMargin
  let tb := if s3.topBuffer = 0 then 0.14 else s3.topBuffer
  let yMax := match s3.innerTop with
    | some it => it - tb - s3.leaderHalfH
    | none => h / 2 - tb - s3.leaderHalfH
  let dx := s3.targetX - s3.leader.x
  let dy := s3.targetY - s3.leader.y
  let d0 := Real.sqrt (dx * dx + dy * dy)
  let dist := if d0 = 0 then 1e-6 else d0
  let maxSpeed := clampR (w * 0.15) 0.22 0.80
  let maxAccel := clampR (w * 0.42) 0.55 1.45
  let desiredSpeed := if dist < 0.55 then maxSpeed * clampR (dist / 0.55) 0.10 1.0 else maxSpeed
  let dvx := dx / dist * desiredSpeed - s3.leader.vx
  let dvy := dy / dist * desiredSpeed - s3.leader.vy
  let dLen0 := Real.sqrt (dvx * dvx + dvy * dvy)
  let dLen := if dLen0 = 0 then 1e-6 else dLen0
  let ax := dvx / dLen * min maxAccel (dLen / dt)
  let ay := dvy / dLen * min maxAccel (dLen / dt)
  let ld := (0.90 : ℝ) ^ dt
  let vx1 := (s3.leader.vx + ax * dt) * ld
  let vy1 := (s3.leader.vy + ay * dt) * ld
  let sp0 := Real.sqrt (vx1 * vx1 + vy1 * vy1)
  let sp := if sp0 = 0 then 1e-6 else sp0
  let vx2 := if sp > maxSpeed then vx1 / sp * maxSpeed else vx1
  let vy2 := if sp > maxSpeed then vy1 / sp * maxSpeed else vy1
  let x1 := s3.leader.x + vx2 * dt
  let y1 := s3.leader.y + vy2 * dt
  let px := if x1 > xMax then (xMax, -|vx2| * 0.65)
    else if x1 < xMin then (xMin, |vx2| * 0.65) else (x1, vx2)
  let py := if y1 > yMax then (yMax, -|vy2| * 0.65)
    else if y1 < yMin then (yMin, |vy2| * 0.65) else (y1, vy2)
  { s3 with leader := { x := px.1, y := py.1, vx := px.2, vy := py.2 } }

/-- The per-member tuning fields a `SchoolingFish` instance carries. -/
structure MemberParams where
  memberIndex : ℕ
  schoolSize : ℕ
  maxSpeed : ℝ
  maxAccel : ℝ
  velDamp : ℝ
  bobAmp : ℝ
  xMin : ℝ
  xMax : ℝ
  yMin : ℝ
  yMax : ℝ
  faceFlipThreshold : ℝ
  faceHoldTime : ℝ

/-- The mutable motion state of one `SchoolingFish` member. -/
structure MemberState where
  x : ℝ
  y : ℝ
  vx : ℝ
  vy : ℝ
  phase : ℝ
  gx : ℝ
  gy : ℝ
  faceDir : ℝ
  faceHoldDir : ℝ
  faceHoldT : ℝ

/-- Oracle inputs for one member update: the values of
`Math.sin(phase + t * 0.55)` (vertical formation offset) and
`Math.sin((phase + t) * bobRate)` (bob). -/
structure MemberTick where
  sVert : ℝ
  sBob : ℝ

/-- `SchoolingFish.update(dt, t)`: early return on falsy `dt`; then
`_tickSchool(school, dt)` is called unconditionally - there is no
"already ticked this frame" stamp - and the member steers towards a
formation offset from the (freshly ticked) leader, with the same
seek-steer-damp-clamp procedure, wall bounces at 0.55 restitution, a bob
re-clamped inside the band, and the facing-hold logic.  Returns the new member
state together with the new shared school state. -/
noncomputable def schoolingFishUpdate (p : MemberParams) (m : MemberState) (s : School)
    (dt t : ℝ) (rr : TickRands) (o : MemberTick) : MemberState × School :=
  if dt = 0 then (m, s)
  else
    let s2 := tickSchool dt rr s
    let leader := s2.leader
    let behind := 0.18 + 0.08 * ((p.schoolSize : ℝ) - 1)
    let along := -behind * ((p.memberIndex : ℝ) / max 1 ((p.schoolSize : ℝ) - 1))
    let lateral := ((p.memberIndex : ℝ) - ((p.schoolSize : ℝ) - 1) * 0.5) * 0.085
    let vertical := o.sVert * 0.022
    let lv := if leader.vx * leader.vx + leader.vy * leader.vy < 1e-6 then ((1 : ℝ), (0 : ℝ))
      else (leader.vx, leader.vy)
    let lvLen := Real.sqrt (lv.1 * lv.1 + lv.2 * lv.2)
    let lvn := (lv.1 / lvLen, lv.2 / lvLen)
    let targetX := leader.x + lvn.1 * along + (-lvn.2) * lateral
    let targetY := leader.y + lvn.2 * along + lvn.1 * lateral + vertical
    let dx := targetX - m.x
    let dy := targetY - m.y
    let dist := Real.sqrt (dx * dx + dy * dy)
    let desiredSpeed := if dist < 0.55 then p.maxSpeed * clampR (dist / 0.55) 0.08 1.0
      else p.maxSpeed
    let desire := if dist > 1e-6 then (dx / dist * desiredSpeed, dy / dist * desiredSpeed)
      else (dx * desiredSpeed, dy * desiredSpeed)
    let steerX := desire.1 - m.vx
    let steerY := desire.2 - m.vy
    let steerLen0 := Real.sqrt (steerX * steerX + steerY * steerY)
    let steerLen := if steerLen0 = 0 then 1e-6 else steerLen0
    let accelMag := min p.maxAccel (steerLen / dt)
    let damp := p.velDamp ^ dt
    let vx1 := (m.vx + steerX / steerLen * accelMag * dt) * damp
    let vy1 := (m.vy + steerY / steerLen * accelMag * dt) * damp
    let sp0 := Real.sqrt (vx1 * vx1 + vy1 * vy1)
    let sp := if sp0 = 0 then 1e-6 else sp0
    let vx2 := if sp > p.maxSpeed then vx1 / sp * p.maxSpeed else vx1
    let vy2 := if sp > p.maxSpeed then vy1 / sp * p.maxSpeed else vy1
    let x1 := m.x + vx2 * dt
    let y1 := m.y + vy2 * dt
    let px := if x1 > p.xMax then (p.xMax, -|vx2| * 0.55)
      else if x1 < p.xMin then (p.xMin, |vx2| * 0.55) else (x1, vx2)
    let py := if y1 > p.yMax then (p.yMax, -|vy2| * 0.55)
      else if y1 < p.yMin then (p.yMin, |vy2| * 0.55) else (y1, vy2)
    let bob := o.sBob * p.bobAmp
    let fh := if px.2 > p.faceFlipThreshold then
        let ht := (if m.faceHoldDir = 1 then m.faceHoldT else 0) + dt
        ((1 : ℝ), ht, if p.faceHoldTime ≤ ht then (1 : ℝ) else m.faceDir)
      else if px.2 < -p.faceFlipThreshold then
        let ht := (if m.faceHoldDir = -1 then m.faceHoldT else 0) + dt
        ((-1 : ℝ), ht, if p.faceHoldTime ≤ ht then (-1 : ℝ) else m.faceDir)
      else ((0 : ℝ), (0 : ℝ), m.faceDir)
    ({ x := px.1, y := py.1, vx := px.2, vy := py.2, phase := m.phase
       gx := px.1
       gy := clampR (py.1 + bob) (p.yMin + p.bobAmp) (p.yMax - p.bobAmp)
       faceDir := fh.2.2, faceHoldDir := fh.1, faceHoldT := fh.2.1 }, s2)

/-- One member of a school as updated during one frame of the render loop:
its tuning, its state, its oracle samples and the `Math.random()` draws its
`_tickSchool` call would consume. -/
structure MemberEntry where
  params : MemberParams
  state : MemberState
  osc : MemberTick
  rands : TickRands

/-- One simulation frame over the members of one school, in loop order: each
member's `update(dt, t)` runs in sequence against the shared school state. -/
noncomputable def schoolMembersFrame (dt t : ℝ) :
    List MemberEntry → School → List MemberState × School
  | [], s => ([], s)
  | e :: es, s =>
      let r := schoolingFishUpdate e.params e.state s dt t e.rands e.osc
      let rest := schoolMembersFrame dt t es r.2
      (r.1 :: rest.1, rest.2)

theorem schoolingFishUpdate_school (p : MemberParams) (m : MemberState) (s : School)
    (dt t : ℝ) (rr : TickRands) (o : MemberTick) (hdt : ¬ dt = 0) :
    (schoolingFishUpdate p m s dt t rr o).2 = tickSchool dt rr s := by
  rw [schoolingFishUpdate, if_neg hdt]

theorem schoolMembersFrame_school (dt t : ℝ) (es : List MemberEntry) (s : School)
    (hdt : ¬ dt = 0) :
    (schoolMembersFrame dt t es s).2 = es.foldl (fun s2 e => tickSchool dt e.rands s2) s := by
  induction es generalizing s with
  | nil => rfl
  | cons e es ih =>
      rw [schoolMembersFrame, List.foldl_cons]
      dsimp only
      rw [schoolingFishUpdate_school e.params e.state s dt t e.rands e.osc hdt]
      exact ih (tickSchool dt e.rands s)

/-- C1 (amended): each `SchoolingFish.update` call ticks the shared leader
exactly once - `_tickSchool` runs unconditionally, with no "already ticked
this frame" stamp - so a frame that updates `n` members of one school applies
`_tickSchool` to the shared state `n` times, once per member in loop order. -/
theorem school_leader_ticked_once_per_member :
    (∀ (p : MemberParams) (m : MemberState) (s : School) (dt t : ℝ) (rr : TickRands)
      (o : MemberTick), ¬ dt = 0 →
        (schoolingFishUpdate p m s dt t rr o).2 = tickSchool dt rr s) ∧
    (∀ (dt t : ℝ) (es : List MemberEntry) (s : School), ¬ dt = 0 →
      (schoolMembersFrame dt t es s).2 =
        es.foldl (fun s2 e => tickSchool dt e.rands s2) s) :=
  ⟨fun p m s dt t rr o hdt => schoolingFishUpdate_school p m s dt t rr o hdt,
    fun dt t es s hdt => schoolMembersFrame_school dt t es s hdt⟩

theorem real_sqrt_eval {a b : ℝ} (hb : 0 ≤ b) (h : b * b = a) : Real.sqrt a = b := by
  rw [← h]
  exact Real.sqrt_mul_self hb

/-- Random draws sample (unused on the taken paths: the concrete school below
never respawns or retargets during the probed frames). -/
def rr0 : TickRands := ⟨0, 0, 0, 0, 0, 0, 0, 0⟩

/-- A concrete shared school state: 2x2 world, leader at the origin moving
right at 0.30, target at (1, 0), retarget timer far from expiry. -/
noncomputable def school0 : School :=
  { width := 2, height := 2, innerTop := none, sizeHint := 3, needsRespawn := false
    leaderHalfH := 0.08, topBuffer := 0.14
    leader := { x := 0, y := 0, vx := 0.3, vy := 0 }
    timer := 100, targetX := 1, targetY := 0 }

/-- `school0` after one `_tickSchool` with `dt = 1`. -/
noncomputable def school1 : School :=
  { school0 with timer := 99, leader := { x := 27/100, y := 0, vx := 27/100, vy := 0 } }

/-- `school0` after two `_tickSchool` calls with `dt = 1`. -/
noncomputable def school2 : School :=
  { school0 with timer := 98, leader := { x := 27/50, y := 0, vx := 27/100, vy := 0 } }

/-- `school0` after three `_tickSchool` calls with `dt = 1`. -/
noncomputable def school3 : School :=
  { school0 with timer := 97, leader := { x := 1053/1375, y := 0, vx := 621/2750, vy := 0 } }

theorem tick_school0 : tickSchool 1 rr0 school0 = school1 := by
  have h729 : Real.sqrt 729 = 27 := real_sqrt_eval (by norm_num) (by norm_num)
  have h10000 : Real.sqrt 10000 = 100 := real_sqrt_eval (by norm_num) (by norm_num)
  unfold tickSchool
  norm_num [school0, school1, rr0, clampR, Real.sqrt_one, Real.sqrt_zero, Real.rpow_one,
    h729, h10000]

theorem tick_school1 : tickSchool 1 rr0 school1 = school2 := by
  have h729 : Real.sqrt 729 = 27 := real_sqrt_eval (by norm_num) (by norm_num)
  have h10000 : Real.sqrt 10000 = 100 := real_sqrt_eval (by norm_num) (by norm_num)
  have h5329 : Real.sqrt 5329 = 73 := real_sqrt_eval (by norm_num) (by norm_num)
  have h9 : Real.sqrt 9 = 3 := real_sqrt_eval (by norm_num) (by norm_num)
  unfold tickSchool
  norm_num [school0, school1, school2, rr0, clampR, Real.sqrt_one, Real.sqrt_zero,
    Real.rpow_one, h729, h10000, h5329, h9]

theorem tick_school2 : tickSchool 1 rr0 school2 = school3 := by
  have h729 : Real.sqrt 729 = 27 := real_sqrt_eval (by norm_num) (by norm_num)
  have h10000 : Real.sqrt 10000 = 100 := real_sqrt_eval (by norm_num) (by norm_num)
  have h529 : Real.sqrt 529 = 23 := real_sqrt_eval (by norm_num) (by norm_num)
  have h2500 : Real.sqrt 2500 = 50 := real_sqrt_eval (by norm_num) (by norm_num)
  have h441 : Real.sqrt 441 = 21 := real_sqrt_eval (by norm_num) (by norm_num)
  have h1210000 : Real.sqrt 1210000 = 1100 := real_sqrt_eval (by norm_num) (by norm_num)
  have h385641 : Real.sqrt 385641 = 621 := real_sqrt_eval (by norm_num) (by norm_num)
  have h7562500 : Real.sqrt 7562500 = 2750 := real_sqrt_eval (by norm_num) (by norm_num)
  unfold tickSchool
  norm_num [school0, school2, school3, rr0, clampR, Real.sqrt_one, Real.sqrt_zero,
    Real.rpow_one, h729, h10000, h529, h2500, h441, h1210000, h385641, h7562500]

/-- A member sample for the C1 counterexample (its fields are irrelevant to the
shared-school component of the frame). -/
noncomputable def memberEntry0 : MemberEntry :=
  { params :=
      { memberIndex := 0, schoolSize := 3, maxSpeed := 0.3, maxAccel := 0.84, velDamp := 0.92
        bobAmp := 0.02, xMin := -0.78, xMax := 0.78, yMin := -0.36, yMax := 0.78
        faceFlipThreshold := 0.06, faceHoldTime := 0.22 }
    state :=
      { x := 0, y := 0, vx := 0.1, vy := 0, phase := 0, gx := 0, gy := 0, faceDir := 1
        faceHoldDir := 0, faceHoldT := 0 }
    osc := { sVert := 0, sBob := 0 }
    rands := rr0 }

/-- C1 (counterexample): with three members sharing one school id, one
simulation frame moves the shared leader three times, not once: from
`school0`, the leader `x` after the frame is `1053/1375 ≈ 0.766`, whereas a
single `_tickSchool` leaves it at `27/100` (and two ticks at `27/50`) - three
distinct positions, one per member update. -/
theorem school_leader_moved_three_times_by_three_members :
    (schoolMembersFrame 1 0 [memberEntry0, memberEntry0, memberEntry0] school0).2.leader.x =
      1053/1375 ∧
    (tickSchool 1 rr0 school0).leader.x = 27/100 ∧
    (tickSchool 1 rr0 (tickSchool 1 rr0 school0)).leader.x = 27/50 ∧
    (1053/1375 : ℝ) ≠ 27/100 ∧ (27/50 : ℝ) ≠ 27/100 ∧ (1053/1375 : ℝ) ≠ 27/50 := by
  have hframe := schoolMembersFrame_school 1 0 [memberEntry0, memberEntry0, memberEntry0]
    school0 (by norm_num)
  rw [hframe]
  simp only [List.foldl_cons, List.foldl_nil, memberEntry0]
  rw [tick_school0, tick_school1, tick_school2]
  exact ⟨by norm_num [school0, school3], by norm_num [school0, school1],
    by norm_num [school0, school2], by norm_num, by norm_num, by norm_num⟩

/-- Witness for the amended C1 at a concrete input: one frame over the three
concrete members applies `_tickSchool` once per member. -/
theorem school_leader_ticked_once_per_member_witness :
    ¬ (1 : ℝ) = 0 ∧
    (schoolMembersFrame 1 0 [memberEntry0, memberEntry0, memberEntry0] school0).2 =
      [memberEntry0, memberEntry0, memberEntry0].foldl
        (fun s2 e => tickSchool 1 e.rands s2) school0 :=
  ⟨one_ne_zero,
    school_leader_ticked_once_per_member.2 1 0 [memberEntry0, memberEntry0, memberEntry0]
      school0 one_ne_zero⟩

end Aquarium
